import Mathlib

set_option maxRecDepth 100000

/-!
Verification of `deploy_to_github.py` (ehudso7/nexus-studio).

The script is a linear sequence of shell-command invocations with best-effort
error logging.  We embed it as a pure function from an `Env` — which records,
for each filesystem path, whether it exists, whether removing the metadata
directory fails, and the outcome of the n-th spawned command — to a trace of
observable events (console messages, the recursive deletion, and each command
invocation together with its boolean outcome) plus the process exit status.
-/

/-- Observable events of a run: a printed message, the recursive deletion of a
directory (recording whether the deletion itself failed), or a shell command
invocation recording the command string and whether it succeeded. -/
inductive Event where
  | msg : String → Event
  | rmtree : String → Bool → Event
  | cmd : String → Bool → Event
deriving DecidableEq

/-- The environment a run executes in: `pathExists` is `os.path.exists`,
`rmtreeFails` tells whether `shutil.rmtree(".git", ignore_errors=True)` hits an
error, and `success n c` is the outcome of the n-th spawned command, whose
command string is `c` (commands are numbered in invocation order). -/
structure Env where
  pathExists : String → Bool
  rmtreeFails : Bool
  success : Nat → String → Bool

/-- Outcome of `subprocess.run`: either the process completed with a return
code and captured stderr, or an exception was raised while spawning/running. -/
inductive ProcOutcome where
  | completed : Int → String → ProcOutcome
  | raised : String → ProcOutcome
deriving DecidableEq

/-- `runCmd` from the source: returns `returncode == 0`; prints the captured
stderr when the return code is non-zero; catches any exception, prints it and
returns `False`.  The second component is the list of printed lines. -/
def runCmd : ProcOutcome → Bool × List String
  | .completed rc stderr => (rc == 0, if rc == 0 then [] else ["Error: " ++ stderr])
  | .raised e => (false, ["Exception: " ++ e])

def initCmd : String := "git init -b main"

def forcePushCmd : String := "git push -f origin main"

def pushCmd : String := "git push origin main"

def remoteAddCmd : String := "git remote add origin https://github.com/ehudso7/nexus-studio.git"

def commitMsg : String :=
  "Initial commit: NexStudio - SaaS Platform\n\nNexStudio is an enterprise-grade visual app builder available exclusively at https://nexstudio.dev\n\nThis is a SaaS-only platform with domain-lock enforcement.\nRepository: https://github.com/ehudso7/nexus-studio"

/-- The essential-files commit command `git commit -m "{commit_msg}"`. -/
def essentialsCommitCmd : String := "git commit -m \"" ++ commitMsg ++ "\""

/-- The per-path commit command `git commit -m "Add {dir_path}"`. -/
def commitFor (d : String) : String := "git commit -m \"Add " ++ d ++ "\""

def essential_files : List String :=
  ["package.json", "REPOSITORY_MANIFEST.md", "SAAS_REQUIREMENTS.md"]

def dirs_to_add : List String :=
  ["packages/domain-lock", "apps/web/middleware.ts", ".github", "docs", "nginx"]

/-- `for file in essential_files: if os.path.exists(file): runCmd(f"git add {file}")`.
`n` is the index of the next command invocation. -/
def stageFiles (env : Env) (n : Nat) : List String → List Event
  | [] => []
  | f :: fs =>
    if env.pathExists f then
      Event.cmd ("git add " ++ f) (env.success n ("git add " ++ f)) :: stageFiles env (n + 1) fs
    else
      stageFiles env n fs

/-- Number of paths in `fs` that exist on disk. -/
def numExisting (env : Env) (fs : List String) : Nat :=
  (fs.filter (fun f => env.pathExists f)).length

/-- The additional-paths loop: for each path that exists, print, stage it, and
only when staging succeeds, commit and push; the loop always continues with the
remaining paths.  `n` is the index of the next command invocation. -/
def pushAdditionalList (env : Env) (n : Nat) : List String → List Event
  | [] => []
  | d :: ds =>
    if env.pathExists d then
      if env.success n ("git add " ++ d) then
        Event.msg ("Adding " ++ d ++ "...") ::
        Event.cmd ("git add " ++ d) true ::
        Event.cmd (commitFor d) (env.success (n + 1) (commitFor d)) ::
        Event.cmd pushCmd (env.success (n + 2) pushCmd) ::
        pushAdditionalList env (n + 3) ds
      else
        Event.msg ("Adding " ++ d ++ "...") ::
        Event.cmd ("git add " ++ d) false ::
        pushAdditionalList env (n + 1) ds
    else
      pushAdditionalList env n ds

/-- Events up to and including `git init -b main` (lines 19–28 of the source):
the opening messages, the conditional deletion of `.git`, and the init command. -/
def cleanupTrace (env : Env) : List Event :=
  [Event.msg "🚀 Deploying NexStudio to GitHub...",
   Event.msg "🧹 Cleaning up old git repository..."] ++
  (if env.pathExists ".git" then [Event.rmtree ".git" env.rmtreeFails] else []) ++
  [Event.msg "📁 Initializing new git repository...",
   Event.cmd initCmd (env.success 0 initCmd)]

/-- The three `git config` commands and the `git remote add` (lines 32–38). -/
def configRemoteTrace (env : Env) : List Event :=
  [Event.cmd "git config core.autocrlf false" (env.success 1 "git config core.autocrlf false"),
   Event.cmd "git config core.filemode false" (env.success 2 "git config core.filemode false"),
   Event.cmd "git config core.compression 0" (env.success 3 "git config core.compression 0"),
   Event.msg "🔗 Adding GitHub remote...",
   Event.cmd remoteAddCmd (env.success 4 remoteAddCmd)]

/-- The essential-files phase (lines 41–69): stage each existing essential
file, commit once with the fixed message, force-push once, and print the
outcome message(s). -/
def essentialsTrace (env : Env) : List Event :=
  Event.msg "📝 Adding essential files..." ::
  stageFiles env 5 essential_files ++
  [Event.msg "💾 Creating initial commit...",
   Event.cmd essentialsCommitCmd
     (env.success (5 + numExisting env essential_files) essentialsCommitCmd),
   Event.msg "⬆️  Pushing to GitHub...",
   Event.cmd forcePushCmd
     (env.success (6 + numExisting env essential_files) forcePushCmd)] ++
  (if env.success (6 + numExisting env essential_files) forcePushCmd then
    [Event.msg "✅ Successfully pushed essential files!"]
   else
    [Event.msg "❌ Failed to push. You may need to authenticate with GitHub.",
     Event.msg "Run: git push -f origin main"])

/-- The additional-paths phase (lines 72–88). -/
def additionalTrace (env : Env) : List Event :=
  Event.msg "\n📦 Adding additional files in batches..." ::
  pushAdditionalList env (7 + numExisting env essential_files) dirs_to_add

/-- The final summary messages (lines 90–93). -/
def finalTrace : List Event :=
  [Event.msg "\n✅ Deployment complete!",
   Event.msg "Repository: https://github.com/ehudso7/nexus-studio",
   Event.msg "\nNote: Some files may have been skipped due to corruption.",
   Event.msg "The essential SaaS platform files have been pushed."]

/-- `main()` (embedded here as `mainFn`) of the source: returns the full event trace of the run and the
process exit status.  When `git init -b main` fails the function returns early
(line 29); in either case the script falls off the end of `main` and the
process exits with status 0. -/
def mainFn (env : Env) : List Event × Nat :=
  if env.success 0 initCmd then
    (cleanupTrace env ++ configRemoteTrace env ++ essentialsTrace env ++
      additionalTrace env ++ finalTrace, 0)
  else
    (cleanupTrace env, 0)

/-- Does event `e` record an invocation of command `c`? -/
def cmdNamed (c : String) : Event → Bool
  | .cmd c' _ => c' == c
  | _ => false

/-- How many times command `c` was invoked in trace `t`. -/
def cmdCount (t : List Event) (c : String) : Nat :=
  t.countP (cmdNamed c)

/-- Was command `c` invoked at least once in trace `t`? -/
def cmdIssued (t : List Event) (c : String) : Bool :=
  t.any (cmdNamed c)

/-- Is `e` a staging command for one of the essential files? -/
def isEssentialAdd : Event → Bool
  | .cmd c _ => essential_files.any (fun f => ("git add " ++ f) == c)
  | _ => false

/-- Is `e` the recursive-deletion event? -/
def isRmtree : Event → Bool
  | .rmtree _ _ => true
  | _ => false

/-- Is every command event in `t` an invocation of `c`? -/
def onlyCmd (c : String) (t : List Event) : Bool :=
  t.all (fun e => match e with
    | .cmd c' _ => c' == c
    | _ => true)

/-! ### Concrete environments used as witnesses and counterexamples -/

/-- Every path exists and every command succeeds. -/
def envAllTrue : Env := ⟨fun _ => true, false, fun _ _ => true⟩

/-- No path exists and every command fails (in particular `git init`). -/
def envInitFail : Env := ⟨fun _ => false, false, fun _ _ => false⟩

/-- No path exists; every command succeeds. -/
def envNone : Env := ⟨fun _ => false, false, fun _ _ => true⟩

/-- Only `docs` exists; every command succeeds except `git add docs`. -/
def envStageFail : Env := ⟨fun s => s == "docs", false, fun _ c => !(c == "git add docs")⟩

/-! ### Per-segment counting lemmas -/

theorem stageFiles_countP_eq_zero (env : Env) (p : Event → Bool) (fs : List String)
    (h : ∀ f ∈ fs, ∀ b, p (Event.cmd ("git add " ++ f) b) = false) :
    ∀ n, (stageFiles env n fs).countP p = 0 := by
  induction fs with
  | nil => intro n; rfl
  | cons f fs ih =>
    intro n
    have hf := h f (by simp)
    have ht : ∀ g ∈ fs, ∀ b, p (Event.cmd ("git add " ++ g) b) = false :=
      fun g hg => h g (by simp [hg])
    by_cases hp : env.pathExists f
    · simp [stageFiles, hp, List.countP_cons, hf, ih ht]
    · simp [stageFiles, hp, ih ht]

theorem stageFiles_all_true (env : Env) (p : Event → Bool) (fs : List String)
    (h : ∀ f ∈ fs, ∀ b, p (Event.cmd ("git add " ++ f) b) = true) :
    ∀ n, ∀ e ∈ stageFiles env n fs, p e = true := by
  induction fs with
  | nil => intro n e he; simp [stageFiles] at he
  | cons f fs ih =>
    intro n e he
    have hf := h f (by simp)
    have ht : ∀ g ∈ fs, ∀ b, p (Event.cmd ("git add " ++ g) b) = true :=
      fun g hg => h g (by simp [hg])
    by_cases hp : env.pathExists f
    · simp [stageFiles, hp] at he
      rcases he with he | he
      · subst he; exact hf _
      · exact ih ht _ e he
    · simp [stageFiles, hp] at he
      exact ih ht _ e he

theorem stageFiles_nil_of_none (env : Env) (fs : List String)
    (h : ∀ f ∈ fs, env.pathExists f = false) :
    ∀ n, stageFiles env n fs = [] := by
  induction fs with
  | nil => intro n; rfl
  | cons f fs ih =>
    intro n
    have hf := h f (by simp)
    have ht : ∀ g ∈ fs, env.pathExists g = false := fun g hg => h g (by simp [hg])
    simp [stageFiles, hf, ih ht]

theorem pushAdditionalList_countP_eq_zero (env : Env) (p : Event → Bool) (ds : List String)
    (hmsg : ∀ d ∈ ds, p (Event.msg ("Adding " ++ d ++ "...")) = false)
    (hadd : ∀ d ∈ ds, ∀ b, p (Event.cmd ("git add " ++ d) b) = false)
    (hcom : ∀ d ∈ ds, ∀ b, p (Event.cmd (commitFor d) b) = false)
    (hpush : ∀ b, p (Event.cmd pushCmd b) = false) :
    ∀ n, (pushAdditionalList env n ds).countP p = 0 := by
  induction ds with
  | nil => intro n; rfl
  | cons d ds ih =>
    intro n
    have h1 := hmsg d (by simp)
    have h2 := hadd d (by simp)
    have h3 := hcom d (by simp)
    have ih' := ih (fun g hg => hmsg g (by simp [hg])) (fun g hg => hadd g (by simp [hg]))
      (fun g hg => hcom g (by simp [hg]))
    by_cases hp : env.pathExists d
    · by_cases hs : env.success n ("git add " ++ d) = true
      · simp [pushAdditionalList, hp, hs, List.countP_cons, h1, h2, h3, hpush, ih']
      · simp [pushAdditionalList, hp, hs, List.countP_cons, h1, h2, ih']
    · simp [pushAdditionalList, hp, ih']

theorem cleanup_countP_eq_zero (env : Env) (p : Event → Bool)
    (h1 : ∀ s, p (Event.msg s) = false)
    (h2 : ∀ b, p (Event.rmtree ".git" b) = false)
    (h3 : ∀ b, p (Event.cmd initCmd b) = false) :
    (cleanupTrace env).countP p = 0 := by
  cases hg : env.pathExists ".git" <;>
    simp [cleanupTrace, hg, List.countP_cons, List.countP_append, h1, h2, h3]

theorem configRemote_countP_eq_zero (env : Env) (p : Event → Bool)
    (h1 : ∀ b, p (Event.cmd "git config core.autocrlf false" b) = false)
    (h2 : ∀ b, p (Event.cmd "git config core.filemode false" b) = false)
    (h3 : ∀ b, p (Event.cmd "git config core.compression 0" b) = false)
    (h4 : ∀ s, p (Event.msg s) = false)
    (h5 : ∀ b, p (Event.cmd remoteAddCmd b) = false) :
    (configRemoteTrace env).countP p = 0 := by
  simp [configRemoteTrace, List.countP_cons, h1, h2, h3, h4, h5]

theorem final_countP_eq_zero (p : Event → Bool)
    (h1 : ∀ s, p (Event.msg s) = false) :
    finalTrace.countP p = 0 := by
  simp [finalTrace, List.countP_cons, h1]

theorem essentials_countP (env : Env) (p : Event → Bool) (qc qp : Bool)
    (h1 : ∀ s, p (Event.msg s) = false)
    (hc : ∀ b, p (Event.cmd essentialsCommitCmd b) = qc)
    (hp : ∀ b, p (Event.cmd forcePushCmd b) = qp) :
    (essentialsTrace env).countP p =
      (stageFiles env 5 essential_files).countP p +
        ((if qc then 1 else 0) + (if qp then 1 else 0)) := by
  cases hps : env.success (6 + numExisting env essential_files) forcePushCmd <;>
    cases qc <;> cases qp <;>
    simp [essentialsTrace, hps, List.countP_cons, List.countP_append, h1, hc, hp] <;>
    omega

theorem additional_countP_eq_zero (env : Env) (p : Event → Bool)
    (h1 : ∀ s, p (Event.msg s) = false)
    (hadd : ∀ d ∈ dirs_to_add, ∀ b, p (Event.cmd ("git add " ++ d) b) = false)
    (hcom : ∀ d ∈ dirs_to_add, ∀ b, p (Event.cmd (commitFor d) b) = false)
    (hpush : ∀ b, p (Event.cmd pushCmd b) = false) :
    (additionalTrace env).countP p = 0 := by
  simp [additionalTrace, List.countP_cons, h1,
    pushAdditionalList_countP_eq_zero env p dirs_to_add (fun d _ => h1 _) hadd hcom hpush]

/-- Total command count of the whole run when `git init` succeeds, expressed
segment by segment. -/
theorem mainFn_countP (env : Env) (p : Event → Bool)
    (h : env.success 0 initCmd = true) :
    (mainFn env).1.countP p =
      (cleanupTrace env).countP p + (configRemoteTrace env).countP p +
      (essentialsTrace env).countP p + (additionalTrace env).countP p +
      finalTrace.countP p := by
  simp [mainFn, h, List.countP_append]
  omega

/-! ### Staging counts over the concrete essential-files list -/

theorem stageFiles_count_essentialAdd (env : Env) (n : Nat) :
    (stageFiles env n essential_files).countP isEssentialAdd =
      numExisting env essential_files := by
  cases h1 : env.pathExists "package.json" <;>
    cases h2 : env.pathExists "REPOSITORY_MANIFEST.md" <;>
    cases h3 : env.pathExists "SAAS_REQUIREMENTS.md" <;>
    simp [stageFiles, essential_files, numExisting, h1, h2, h3, isEssentialAdd,
      List.countP_cons] <;> decide

theorem stageFiles_count_single (env : Env) (n : Nat) (f : String)
    (hf : f ∈ essential_files) :
    (stageFiles env n essential_files).countP (cmdNamed ("git add " ++ f)) =
      if env.pathExists f then 1 else 0 := by
  have hf' : f = "package.json" ∨ f = "REPOSITORY_MANIFEST.md" ∨ f = "SAAS_REQUIREMENTS.md" := by
    simpa [essential_files] using hf
  rcases hf' with rfl | rfl | rfl <;>
    cases h1 : env.pathExists "package.json" <;>
    cases h2 : env.pathExists "REPOSITORY_MANIFEST.md" <;>
    cases h3 : env.pathExists "SAAS_REQUIREMENTS.md" <;>
    simp [stageFiles, essential_files, h1, h2, h3, cmdNamed, List.countP_cons] <;> decide

/-! ### `cmdIssued` helpers -/

theorem cmdIssued_append_left (A B : List Event) (c : String)
    (h : cmdIssued A c = true) : cmdIssued (A ++ B) c = true := by
  simp [cmdIssued, List.any_append] at h ⊢
  exact Or.inl h

theorem cmdIssued_append_right (A B : List Event) (c : String)
    (h : cmdIssued B c = true) : cmdIssued (A ++ B) c = true := by
  simp [cmdIssued, List.any_append] at h ⊢
  exact Or.inr h

/-- Every existing path in the additional-paths list has its staging command
attempted and its progress message printed, whatever the outcomes of any other
command in the run. -/
theorem pushAdditional_stage_attempted (env : Env) (d : String)
    (hex : env.pathExists d = true) :
    ∀ (ds : List String), d ∈ ds → ∀ n,
      cmdIssued (pushAdditionalList env n ds) ("git add " ++ d) = true ∧
      Event.msg ("Adding " ++ d ++ "...") ∈ pushAdditionalList env n ds := by
  intro ds
  induction ds with
  | nil => intro hd; simp at hd
  | cons e ds ih =>
    intro hd n
    by_cases he : d = e
    · subst he
      cases hs : env.success n ("git add " ++ d) <;>
        simp [pushAdditionalList, hex, hs, cmdIssued, cmdNamed]
    · have hd' : d ∈ ds := by
        rcases List.mem_cons.mp hd with h1 | h1
        · exact absurd h1 he
        · exact h1
      by_cases hpe : env.pathExists e
      · cases hs : env.success n ("git add " ++ e)
        · have hih := ih hd' (n + 1)
          have heq : pushAdditionalList env n (e :: ds) =
              [Event.msg ("Adding " ++ e ++ "..."), Event.cmd ("git add " ++ e) false] ++
                pushAdditionalList env (n + 1) ds := by
            simp [pushAdditionalList, hpe, hs]
          rw [heq]
          exact ⟨cmdIssued_append_right _ _ _ hih.1, List.mem_append.mpr (Or.inr hih.2)⟩
        · have hih := ih hd' (n + 3)
          have heq : pushAdditionalList env n (e :: ds) =
              [Event.msg ("Adding " ++ e ++ "..."), Event.cmd ("git add " ++ e) true,
               Event.cmd (commitFor e) (env.success (n + 1) (commitFor e)),
               Event.cmd pushCmd (env.success (n + 2) pushCmd)] ++
                pushAdditionalList env (n + 3) ds := by
            simp [pushAdditionalList, hpe, hs]
          rw [heq]
          exact ⟨cmdIssued_append_right _ _ _ hih.1, List.mem_append.mpr (Or.inr hih.2)⟩
      · simp only [pushAdditionalList, hpe, Bool.false_eq_true, if_false]
        exact ih hd' n

/-! ### takeWhile helpers, for the ordering part of the forced-push claim -/

theorem takeWhile_append_of_all {α : Type} (p : α → Bool) (A B : List α)
    (h : ∀ a ∈ A, p a = true) : (A ++ B).takeWhile p = A ++ B.takeWhile p := by
  induction A with
  | nil => rfl
  | cons a A ih =>
    have ha := h a (by simp)
    simp [List.takeWhile_cons, ha, ih (fun x hx => h x (by simp [hx]))]

theorem cleanup_all_true (env : Env) (p : Event → Bool)
    (h1 : ∀ s, p (Event.msg s) = true)
    (h2 : ∀ b, p (Event.rmtree ".git" b) = true)
    (h3 : ∀ b, p (Event.cmd initCmd b) = true) :
    ∀ e ∈ cleanupTrace env, p e = true := by
  intro e he
  by_cases hg : env.pathExists ".git"
  · simp [cleanupTrace, hg] at he
    rcases he with rfl | rfl | rfl | rfl | rfl <;>
      first | exact h1 _ | exact h2 _ | exact h3 _
  · simp [cleanupTrace, hg] at he
    rcases he with rfl | rfl | rfl | rfl <;> first | exact h1 _ | exact h3 _

theorem configRemote_all_true (env : Env) (p : Event → Bool)
    (h1 : ∀ b, p (Event.cmd "git config core.autocrlf false" b) = true)
    (h2 : ∀ b, p (Event.cmd "git config core.filemode false" b) = true)
    (h3 : ∀ b, p (Event.cmd "git config core.compression 0" b) = true)
    (h4 : ∀ s, p (Event.msg s) = true)
    (h5 : ∀ b, p (Event.cmd remoteAddCmd b) = true) :
    ∀ e ∈ configRemoteTrace env, p e = true := by
  intro e he
  simp [configRemoteTrace] at he
  rcases he with rfl | rfl | rfl | rfl | rfl <;>
    first | exact h1 _ | exact h2 _ | exact h3 _ | exact h4 _ | exact h5 _

/-- The prefix of the run strictly before the essential-files commit command:
everything up to the cleanup, configuration, remote-add and staging steps. -/
theorem mainFn_takeWhile_commit (env : Env) (h : env.success 0 initCmd = true) :
    (mainFn env).1.takeWhile (fun e => !(cmdNamed essentialsCommitCmd e)) =
      cleanupTrace env ++ (configRemoteTrace env ++
        (Event.msg "📝 Adding essential files..." ::
          (stageFiles env 5 essential_files ++
            [Event.msg "💾 Creating initial commit..."]))) := by
  have hclean : ∀ e ∈ cleanupTrace env,
      (fun e => !(cmdNamed essentialsCommitCmd e)) e = true :=
    cleanup_all_true env _ (fun _ => rfl) (fun _ => rfl) (by decide)
  have hconfig : ∀ e ∈ configRemoteTrace env,
      (fun e => !(cmdNamed essentialsCommitCmd e)) e = true :=
    configRemote_all_true env _ (by decide) (by decide) (by decide) (fun _ => rfl) (by decide)
  have hstage : ∀ e ∈ stageFiles env 5 essential_files,
      (fun e => !(cmdNamed essentialsCommitCmd e)) e = true :=
    stageFiles_all_true env _ essential_files (by decide) 5
  simp only [mainFn, h, if_true, List.append_assoc]
  rw [takeWhile_append_of_all _ _ _ hclean]
  rw [takeWhile_append_of_all _ _ _ hconfig]
  simp only [essentialsTrace, List.cons_append, List.append_assoc, List.takeWhile_cons]
  rw [takeWhile_append_of_all _ _ _ hstage]
  simp [cmdNamed]

theorem cleanup_countP_rmtree (env : Env) :
    (cleanupTrace env).countP isRmtree = if env.pathExists ".git" then 1 else 0 := by
  cases hg : env.pathExists ".git" <;>
    simp [cleanupTrace, hg, List.countP_cons, List.countP_append, isRmtree]

theorem cleanup_issues_init (env : Env) : cmdIssued (cleanupTrace env) initCmd = true := by
  cases hg : env.pathExists ".git" <;> simp [cleanupTrace, hg, cmdIssued, cmdNamed]

/-! ### The claims -/

/-- C5: `run_cmd` returns `true` iff the spawned process's exit status is zero;
on a non-zero exit status it prints the captured standard-error text; any
exception raised while spawning/running is converted to a `false` return with
the exception printed — the caller never receives a raised error. -/
theorem runCmd_boolean_success (rc : Int) (errText e : String) :
    ((runCmd (.completed rc errText)).1 = true ↔ rc = 0) ∧
    (rc ≠ 0 → ("Error: " ++ errText) ∈ (runCmd (.completed rc errText)).2) ∧
    (runCmd (.raised e)).1 = false ∧
    ("Exception: " ++ e) ∈ (runCmd (.raised e)).2 := by
  refine ⟨by simp [runCmd], ?_, rfl, by simp [runCmd]⟩
  intro h
  simp [runCmd, h]

/-- Witness for C5 at a failing process (`rc = 1`) and a raised exception. -/
theorem runCmd_boolean_success_witness :
    (((runCmd (.completed 1 "boom")).1 = true ↔ (1 : Int) = 0) ∧
      ("Error: " ++ "boom") ∈ (runCmd (.completed 1 "boom")).2) ∧
    ((runCmd (.raised "oops")).1 = false ∧
      ("Exception: " ++ "oops") ∈ (runCmd (.raised "oops")).2) :=
  ⟨⟨(runCmd_boolean_success 1 "boom" "oops").1,
    (runCmd_boolean_success 1 "boom" "oops").2.1 (by decide)⟩,
   (runCmd_boolean_success 1 "boom" "oops").2.2.1,
   (runCmd_boolean_success 1 "boom" "oops").2.2.2⟩

/-- C6: for every environment — however many internal commands fail — the
process exits normally with status 0; no exception and no failure code reaches
the process boundary. -/
theorem process_always_exits_zero (env : Env) : (mainFn env).2 = 0 := by
  by_cases h : env.success 0 initCmd = true <;> simp [mainFn, h]

/-- C1: if `git init -b main` fails, `main` returns early and the init command
is the only command ever issued — no configuration, remote-add, stage, commit
or push follows; conversely, whenever init succeeds the run always reaches the
final summary, whatever other failures occur, so initialization is the only
step whose failure halts the remaining sequence. -/
theorem init_failure_halts_run (env : Env) :
    (env.success 0 initCmd = false → onlyCmd initCmd (mainFn env).1 = true) ∧
    (env.success 0 initCmd = true →
      Event.msg "\n✅ Deployment complete!" ∈ (mainFn env).1) := by
  constructor
  · intro h
    have h' : ¬ env.success 0 initCmd = true := by simp [h]
    cases hg : env.pathExists ".git" <;>
      simp [mainFn, h', onlyCmd, cleanupTrace, hg]
  · intro h
    simp [mainFn, h, finalTrace]

/-- Witness for C1: a run whose init fails issues no further command, and a
run whose init succeeds reaches the final summary. -/
theorem init_failure_halts_run_witness :
    onlyCmd initCmd (mainFn envInitFail).1 = true ∧
    Event.msg "\n✅ Deployment complete!" ∈ (mainFn envAllTrue).1 :=
  ⟨(init_failure_halts_run envInitFail).1 rfl,
   (init_failure_halts_run envAllTrue).2 rfl⟩

/-- C8: the `.git` metadata directory is deleted exactly when it is present;
deletion errors are suppressed — every event of the run other than the
recorded deletion itself is identical whether or not the deletion failed —
and in every case execution proceeds to the `git init -b main` step. -/
theorem cleanup_deletion_best_effort (pe : String → Bool) (b b' : Bool)
    (s : Nat → String → Bool) :
    ((mainFn ⟨pe, b, s⟩).1.countP isRmtree = if pe ".git" then 1 else 0) ∧
    cmdIssued (mainFn ⟨pe, b, s⟩).1 initCmd = true ∧
    (mainFn ⟨pe, b, s⟩).1.filter (fun e => !(isRmtree e)) =
      (mainFn ⟨pe, b', s⟩).1.filter (fun e => !(isRmtree e)) := by
  have hrfl : ∀ x, isRmtree (Event.msg x) = false := fun _ => rfl
  cases hi : s 0 initCmd
  · have e1 : mainFn ⟨pe, b, s⟩ = (cleanupTrace ⟨pe, b, s⟩, 0) := by
      simp [mainFn, hi]
    have e2 : mainFn ⟨pe, b', s⟩ = (cleanupTrace ⟨pe, b', s⟩, 0) := by
      simp [mainFn, hi]
    refine ⟨?_, ?_, ?_⟩
    · rw [e1]; exact cleanup_countP_rmtree _
    · rw [e1]; exact cleanup_issues_init _
    · rw [e1, e2]
      cases hg : pe ".git" <;> simp [cleanupTrace, hg, isRmtree]
  · have e1 : mainFn ⟨pe, b, s⟩ = (cleanupTrace ⟨pe, b, s⟩ ++ configRemoteTrace ⟨pe, b, s⟩ ++
        essentialsTrace ⟨pe, b, s⟩ ++ additionalTrace ⟨pe, b, s⟩ ++ finalTrace, 0) := by
      simp [mainFn, hi]
    have e2 : mainFn ⟨pe, b', s⟩ = (cleanupTrace ⟨pe, b', s⟩ ++ configRemoteTrace ⟨pe, b', s⟩ ++
        essentialsTrace ⟨pe, b', s⟩ ++ additionalTrace ⟨pe, b', s⟩ ++ finalTrace, 0) := by
      simp [mainFn, hi]
    refine ⟨?_, ?_, ?_⟩
    · rw [e1]
      simp only [List.countP_append]
      rw [cleanup_countP_rmtree]
      rw [configRemote_countP_eq_zero _ _ (fun _ => rfl) (fun _ => rfl) (fun _ => rfl)
          (fun _ => rfl) (fun _ => rfl)]
      rw [essentials_countP _ _ false false (fun _ => rfl) (fun _ => rfl) (fun _ => rfl)]
      rw [stageFiles_countP_eq_zero _ _ _ (fun _ _ _ => rfl)]
      rw [additional_countP_eq_zero _ _ (fun _ => rfl) (fun _ _ _ => rfl) (fun _ _ _ => rfl)
          (fun _ => rfl)]
      rw [final_countP_eq_zero _ (fun _ => rfl)]
      cases hg : pe ".git" <;> simp [hg]
    · rw [e1]
      exact cmdIssued_append_left _ _ _ (cmdIssued_append_left _ _ _
        (cmdIssued_append_left _ _ _ (cmdIssued_append_left _ _ _ (cleanup_issues_init _))))
    · rw [e1, e2]
      simp only [List.filter_append]
      have hc : (cleanupTrace ⟨pe, b, s⟩).filter (fun e => !(isRmtree e)) =
          (cleanupTrace ⟨pe, b', s⟩).filter (fun e => !(isRmtree e)) := by
        cases hg : pe ".git" <;> simp [cleanupTrace, hg, isRmtree]
      rw [hc]
      rfl

/-- C3: in the essential-files phase a staging command is issued for an
essential file iff that file exists on disk, and the total number of
essential-file staging commands issued in the run equals the number of
essential files that exist. -/
theorem essential_staging_matches_existence (env : Env) (f : String)
    (hf : f ∈ essential_files) (h : env.success 0 initCmd = true) :
    cmdCount (mainFn env).1 ("git add " ++ f) =
      (if env.pathExists f then 1 else 0) ∧
    (mainFn env).1.countP isEssentialAdd = numExisting env essential_files := by
  constructor
  · have hf' : f = "package.json" ∨ f = "REPOSITORY_MANIFEST.md" ∨
        f = "SAAS_REQUIREMENTS.md" := by simpa [essential_files] using hf
    simp only [cmdCount]
    rw [mainFn_countP env _ h]
    rcases hf' with rfl | rfl | rfl <;>
    · rw [cleanup_countP_eq_zero _ _ (fun _ => rfl) (fun _ => rfl) (by decide)]
      rw [configRemote_countP_eq_zero _ _ (by decide) (by decide) (by decide)
          (fun _ => rfl) (by decide)]
      rw [essentials_countP _ _ false false (fun _ => rfl) (by decide) (by decide)]
      rw [additional_countP_eq_zero _ _ (fun _ => rfl) (by decide) (by decide) (by decide)]
      rw [final_countP_eq_zero _ (fun _ => rfl)]
      rw [stageFiles_count_single env 5 _ (by decide)]
      simp
  · rw [mainFn_countP env _ h]
    rw [cleanup_countP_eq_zero _ _ (fun _ => rfl) (fun _ => rfl) (by decide)]
    rw [configRemote_countP_eq_zero _ _ (by decide) (by decide) (by decide)
        (fun _ => rfl) (by decide)]
    rw [essentials_countP _ _ false false (fun _ => rfl) (by decide) (by decide)]
    rw [additional_countP_eq_zero _ _ (fun _ => rfl) (by decide) (by decide) (by decide)]
    rw [final_countP_eq_zero _ (fun _ => rfl)]
    rw [stageFiles_count_essentialAdd]
    simp

/-- Witness for C3: with every path present, `package.json` is staged once and
three essential staging commands are issued in total. -/
theorem essential_staging_matches_existence_witness :
    "package.json" ∈ essential_files ∧
    cmdCount (mainFn envAllTrue).1 ("git add " ++ "package.json") =
      (if envAllTrue.pathExists "package.json" then 1 else 0) ∧
    (mainFn envAllTrue).1.countP isEssentialAdd =
      numExisting envAllTrue essential_files :=
  ⟨by decide, essential_staging_matches_existence envAllTrue "package.json" (by decide) rfl⟩

/-- C4: whenever initialization succeeds, the forced push `git push -f origin
main` is issued exactly once in the whole run, the essential-files commit is
issued, and no forced push occurs before the first essential-files commit
command — regardless of the outcomes of the configuration and remote-add
commands. -/
theorem forced_push_exactly_once (env : Env) (h : env.success 0 initCmd = true) :
    cmdCount (mainFn env).1 forcePushCmd = 1 ∧
    cmdIssued (mainFn env).1 essentialsCommitCmd = true ∧
    cmdCount ((mainFn env).1.takeWhile (fun e => !(cmdNamed essentialsCommitCmd e)))
      forcePushCmd = 0 := by
  refine ⟨?_, ?_, ?_⟩
  · simp only [cmdCount]
    rw [mainFn_countP env _ h]
    rw [cleanup_countP_eq_zero _ _ (fun _ => rfl) (fun _ => rfl) (by decide)]
    rw [configRemote_countP_eq_zero _ _ (by decide) (by decide) (by decide)
        (fun _ => rfl) (by decide)]
    rw [essentials_countP _ _ false true (fun _ => rfl) (by decide) (by decide)]
    rw [stageFiles_countP_eq_zero _ _ _ (by decide)]
    rw [additional_countP_eq_zero _ _ (fun _ => rfl) (by decide) (by decide) (by decide)]
    rw [final_countP_eq_zero _ (fun _ => rfl)]
    simp
  · have e1 : (mainFn env).1 = cleanupTrace env ++ configRemoteTrace env ++
        essentialsTrace env ++ additionalTrace env ++ finalTrace := by
      simp [mainFn, h]
    rw [e1]
    apply cmdIssued_append_left
    apply cmdIssued_append_left
    apply cmdIssued_append_right
    cases hps : env.success (6 + numExisting env essential_files) forcePushCmd <;>
      simp [essentialsTrace, hps, cmdIssued, cmdNamed]
  · rw [mainFn_takeWhile_commit env h]
    simp only [cmdCount, List.countP_append, List.countP_cons]
    rw [cleanup_countP_eq_zero _ _ (fun _ => rfl) (fun _ => rfl) (by decide)]
    rw [configRemote_countP_eq_zero _ _ (by decide) (by decide) (by decide)
        (fun _ => rfl) (by decide)]
    rw [stageFiles_countP_eq_zero _ _ _ (by decide)]
    simp [cmdNamed]

/-- Witness for C4 on a run where everything succeeds. -/
theorem forced_push_exactly_once_witness :
    cmdCount (mainFn envAllTrue).1 forcePushCmd = 1 ∧
    cmdIssued (mainFn envAllTrue).1 essentialsCommitCmd = true ∧
    cmdCount ((mainFn envAllTrue).1.takeWhile
      (fun e => !(cmdNamed essentialsCommitCmd e))) forcePushCmd = 0 :=
  forced_push_exactly_once envAllTrue rfl

/-- C9: when none of the three essential files exists (and init succeeded),
zero essential staging commands are issued, yet the fixed-message commit and
the forced push are each issued exactly once. -/
theorem no_essentials_still_commit_push (env : Env)
    (h : env.success 0 initCmd = true)
    (hn : ∀ f ∈ essential_files, env.pathExists f = false) :
    (mainFn env).1.countP isEssentialAdd = 0 ∧
    cmdCount (mainFn env).1 essentialsCommitCmd = 1 ∧
    cmdCount (mainFn env).1 forcePushCmd = 1 := by
  have hstage : stageFiles env 5 essential_files = [] :=
    stageFiles_nil_of_none env _ hn 5
  refine ⟨?_, ?_, ?_⟩
  · rw [mainFn_countP env _ h]
    rw [cleanup_countP_eq_zero _ _ (fun _ => rfl) (fun _ => rfl) (by decide)]
    rw [configRemote_countP_eq_zero _ _ (by decide) (by decide) (by decide)
        (fun _ => rfl) (by decide)]
    rw [essentials_countP _ _ false false (fun _ => rfl) (by decide) (by decide)]
    rw [additional_countP_eq_zero _ _ (fun _ => rfl) (by decide) (by decide) (by decide)]
    rw [final_countP_eq_zero _ (fun _ => rfl)]
    rw [hstage]
    simp
  · simp only [cmdCount]
    rw [mainFn_countP env _ h]
    rw [cleanup_countP_eq_zero _ _ (fun _ => rfl) (fun _ => rfl) (by decide)]
    rw [configRemote_countP_eq_zero _ _ (by decide) (by decide) (by decide)
        (fun _ => rfl) (by decide)]
    rw [essentials_countP _ _ true false (fun _ => rfl) (by decide) (by decide)]
    rw [additional_countP_eq_zero _ _ (fun _ => rfl) (by decide) (by decide) (by decide)]
    rw [final_countP_eq_zero _ (fun _ => rfl)]
    rw [hstage]
    simp
  · simp only [cmdCount]
    rw [mainFn_countP env _ h]
    rw [cleanup_countP_eq_zero _ _ (fun _ => rfl) (fun _ => rfl) (by decide)]
    rw [configRemote_countP_eq_zero _ _ (by decide) (by decide) (by decide)
        (fun _ => rfl) (by decide)]
    rw [essentials_countP _ _ false true (fun _ => rfl) (by decide) (by decide)]
    rw [additional_countP_eq_zero _ _ (fun _ => rfl) (by decide) (by decide) (by decide)]
    rw [final_countP_eq_zero _ (fun _ => rfl)]
    rw [hstage]
    simp

/-- Witness for C9 on a run where no path exists but every command succeeds. -/
theorem no_essentials_still_commit_push_witness :
    (mainFn envNone).1.countP isEssentialAdd = 0 ∧
    cmdCount (mainFn envNone).1 essentialsCommitCmd = 1 ∧
    cmdCount (mainFn envNone).1 forcePushCmd = 1 :=
  no_essentials_still_commit_push envNone rfl (by decide)

theorem cmdIssued_cons_of (e : Event) (L : List Event) (c : String)
    (h : cmdIssued L c = true) : cmdIssued (e :: L) c = true := by
  simp [cmdIssued, List.any_cons] at h ⊢
  exact Or.inr h

/-- C2 counterexample: in the concrete run `envStageFail` — `docs` exists and
every command succeeds except `git add docs` — the staging command for `docs`
is attempted but neither the commit nor the (non-forced) push for `docs` is
ever issued, refuting the claim that all three steps of an existing path's
cycle are attempted regardless of the staging outcome. -/
theorem additional_stage_failure_skips_rest :
    envStageFail.pathExists "docs" = true ∧
    cmdIssued (mainFn envStageFail).1 ("git add " ++ "docs") = true ∧
    cmdIssued (mainFn envStageFail).1 (commitFor "docs") = false ∧
    cmdIssued (mainFn envStageFail).1 pushCmd = false := by decide

/-- C2 (amended): for every additional path that exists, the staging command
is attempted and the loop continues with the remaining paths in every case;
the commit and the (non-forced) push for that path are attempted when its
staging succeeds — the push even if the commit fails — while a staging
failure makes the iteration skip both and move on. -/
theorem additional_cycle_stage_gated (env : Env) (n : Nat) (d : String)
    (ds : List String) (hex : env.pathExists d = true) :
    cmdIssued (pushAdditionalList env n (d :: ds)) ("git add " ++ d) = true ∧
    (env.success n ("git add " ++ d) = true →
      cmdIssued (pushAdditionalList env n (d :: ds)) (commitFor d) = true ∧
      cmdIssued (pushAdditionalList env n (d :: ds)) pushCmd = true) ∧
    (env.success n ("git add " ++ d) = false →
      pushAdditionalList env n (d :: ds) =
        Event.msg ("Adding " ++ d ++ "...") :: Event.cmd ("git add " ++ d) false ::
          pushAdditionalList env (n + 1) ds) := by
  refine ⟨?_, ?_, ?_⟩
  · cases hs : env.success n ("git add " ++ d) <;>
      simp [pushAdditionalList, hex, hs, cmdIssued, cmdNamed]
  · intro hs
    constructor <;> simp [pushAdditionalList, hex, hs, cmdIssued, cmdNamed]
  · intro hs
    simp [pushAdditionalList, hex, hs]

/-- Witness for the amended C2: the failing-staging case on `envStageFail` and
the succeeding-staging case on `envAllTrue`, both at the path `docs`. -/
theorem additional_cycle_stage_gated_witness :
    (cmdIssued (pushAdditionalList envStageFail 0 ["docs"]) ("git add " ++ "docs") = true ∧
      pushAdditionalList envStageFail 0 ["docs"] =
        Event.msg ("Adding " ++ "docs" ++ "...") ::
          Event.cmd ("git add " ++ "docs") false :: pushAdditionalList envStageFail 1 []) ∧
    (cmdIssued (pushAdditionalList envAllTrue 0 ["docs"]) (commitFor "docs") = true ∧
      cmdIssued (pushAdditionalList envAllTrue 0 ["docs"]) pushCmd = true) :=
  ⟨⟨(additional_cycle_stage_gated envStageFail 0 "docs" [] (by decide)).1,
    (additional_cycle_stage_gated envStageFail 0 "docs" [] (by decide)).2.2 (by decide)⟩,
   (additional_cycle_stage_gated envAllTrue 0 "docs" [] rfl).2.1 rfl⟩

/-- C7: cross-path independence of the additional-paths phase — whatever the
outcomes of every other command in the run (in particular a failed commit or
staging of an earlier path), every path of the list that exists has its cycle
attempted: its progress message is printed and its staging command issued. -/
theorem additional_paths_independent (env : Env)
    (h : env.success 0 initCmd = true) (d : String)
    (hd : d ∈ dirs_to_add) (hex : env.pathExists d = true) :
    cmdIssued (mainFn env).1 ("git add " ++ d) = true ∧
    Event.msg ("Adding " ++ d ++ "...") ∈ (mainFn env).1 := by
  have e1 : (mainFn env).1 = cleanupTrace env ++ configRemoteTrace env ++
      essentialsTrace env ++ additionalTrace env ++ finalTrace := by
    simp [mainFn, h]
  have hseg := pushAdditional_stage_attempted env d hex dirs_to_add hd
    (7 + numExisting env essential_files)
  rw [e1]
  constructor
  · apply cmdIssued_append_left
    apply cmdIssued_append_right
    exact cmdIssued_cons_of _ _ _ hseg.1
  · refine List.mem_append.mpr (Or.inl (List.mem_append.mpr (Or.inr ?_)))
    exact List.mem_cons_of_mem _ hseg.2

/-- Witness for C7: in an all-success run, `.github` is staged and announced. -/
theorem additional_paths_independent_witness :
    cmdIssued (mainFn envAllTrue).1 ("git add " ++ ".github") = true ∧
    Event.msg ("Adding " ++ ".github" ++ "...") ∈ (mainFn envAllTrue).1 :=
  additional_paths_independent envAllTrue rfl ".github" (by decide) rfl

/-- C10: for an existing additional path, a staging failure makes the
iteration emit exactly the progress message and the failed staging event —
issuing neither the commit nor the push for that path — before continuing
with the remaining paths, while a staging success makes it issue the commit
and then the push, the push regardless of the commit's outcome. -/
theorem additional_stage_failure_skips_both (env : Env) (n : Nat) (d : String)
    (ds : List String) (hd : d ∈ dirs_to_add) (hex : env.pathExists d = true) :
    (env.success n ("git add " ++ d) = false →
      pushAdditionalList env n (d :: ds) =
        [Event.msg ("Adding " ++ d ++ "..."), Event.cmd ("git add " ++ d) false] ++
          pushAdditionalList env (n + 1) ds ∧
      cmdIssued [Event.msg ("Adding " ++ d ++ "..."),
        Event.cmd ("git add " ++ d) false] (commitFor d) = false ∧
      cmdIssued [Event.msg ("Adding " ++ d ++ "..."),
        Event.cmd ("git add " ++ d) false] pushCmd = false) ∧
    (env.success n ("git add " ++ d) = true →
      pushAdditionalList env n (d :: ds) =
        [Event.msg ("Adding " ++ d ++ "..."), Event.cmd ("git add " ++ d) true,
         Event.cmd (commitFor d) (env.success (n + 1) (commitFor d)),
         Event.cmd pushCmd (env.success (n + 2) pushCmd)] ++
          pushAdditionalList env (n + 3) ds ∧
      cmdIssued [Event.msg ("Adding " ++ d ++ "..."), Event.cmd ("git add " ++ d) true,
         Event.cmd (commitFor d) (env.success (n + 1) (commitFor d)),
         Event.cmd pushCmd (env.success (n + 2) pushCmd)] (commitFor d) = true ∧
      cmdIssued [Event.msg ("Adding " ++ d ++ "..."), Event.cmd ("git add " ++ d) true,
         Event.cmd (commitFor d) (env.success (n + 1) (commitFor d)),
         Event.cmd pushCmd (env.success (n + 2) pushCmd)] pushCmd = true) := by
  have hd' : d = "packages/domain-lock" ∨ d = "apps/web/middleware.ts" ∨
      d = ".github" ∨ d = "docs" ∨ d = "nginx" := by simpa [dirs_to_add] using hd
  constructor
  · intro hs
    refine ⟨by simp [pushAdditionalList, hex, hs], ?_, ?_⟩ <;>
      rcases hd' with rfl | rfl | rfl | rfl | rfl <;> decide
  · intro hs
    refine ⟨by simp [pushAdditionalList, hex, hs], ?_, ?_⟩ <;>
      rcases hd' with rfl | rfl | rfl | rfl | rfl <;>
      simp [cmdIssued, cmdNamed]

/-- Witness for C10: the failing-staging branch on `envStageFail` and the
succeeding-staging branch on `envAllTrue`, both at the path `docs`. -/
theorem additional_stage_failure_skips_both_witness :
    (pushAdditionalList envStageFail 0 ["docs"] =
      [Event.msg ("Adding " ++ "docs" ++ "..."), Event.cmd ("git add " ++ "docs") false] ++
        pushAdditionalList envStageFail 1 [] ∧
      cmdIssued [Event.msg ("Adding " ++ "docs" ++ "..."),
        Event.cmd ("git add " ++ "docs") false] (commitFor "docs") = false ∧
      cmdIssued [Event.msg ("Adding " ++ "docs" ++ "..."),
        Event.cmd ("git add " ++ "docs") false] pushCmd = false) ∧
    (pushAdditionalList envAllTrue 0 ["docs"] =
      [Event.msg ("Adding " ++ "docs" ++ "..."), Event.cmd ("git add " ++ "docs") true,
       Event.cmd (commitFor "docs") (envAllTrue.success 1 (commitFor "docs")),
       Event.cmd pushCmd (envAllTrue.success 2 pushCmd)] ++
        pushAdditionalList envAllTrue 3 []) :=
  ⟨(additional_stage_failure_skips_both envStageFail 0 "docs" [] (by decide)
      (by decide)).1 (by decide),
   ((additional_stage_failure_skips_both envAllTrue 0 "docs" [] (by decide) rfl).2 rfl).1⟩
